import Mathlib

/-!
# Verification of the I-V sweep repository (pymeasure scripts)

Shallow embedding of the repository's four source files:

* `Scripts/Jupyter/IV/IVkeithley.py` — the waveform generator `CurrentValues`
  and the sweep procedure `IV` (`startup`/`execute`/`shutdown`);
* `pymeasure/instruments/keithley/keithley2182.py` — the nanovoltmeter façade
  (`set_channel`, `measure_voltage`);
* `pymeasure/instruments/keithley/keithley6220.py` — the current-source façade
  (`current_range`, `shutdown`, `check_errors`, `ramp_to_current`, …).

Python/numpy floats are modelled by exact rationals `ℚ`; the SCPI transport by
explicit traces of commands; Python exceptions by an error type `PyErr`.
-/

/-- `numpy.arange start stop step` over exact rationals: the values
`start, start + step, start + 2·step, …`, of length `⌈(stop - start)/step⌉`
clamped at zero (numpy's documented length formula, which the integer
`Int.toNat` clamp reproduces for both signs of `step`). -/
def arange (start stop step : ℚ) : List ℚ :=
  (List.range (⌈(stop - start) / step⌉).toNat).map
    (fun k : ℕ => start + (k : ℚ) * step)

/-- `numpy.linspace start stop num` with the default inclusive endpoint:
`num` samples `start + k·(stop - start)/(num - 1)`.  (Over exact rationals the
final sample equals `stop` whenever `num ≥ 2`; for `num = 1` the division by
zero follows the convention `q / 0 = 0` and the single sample is `start`,
as numpy also returns.) -/
def linspace (start stop : ℚ) (num : ℕ) : List ℚ :=
  (List.range num).map
    (fun k : ℕ => start + (k : ℚ) * ((stop - start) / ((num : ℚ) - 1)))

/-- `CurrentValues` from `IVkeithley.py` lines 13-17:
`np.hstack((np.arange(0, rangeA, stepA), np.arange(rangeA, -rangeA, -stepA),
np.arange(-rangeA, 0, stepA)))` followed by `np.append(CurrentValues, 0)`. -/
def CurrentValues (rangeA stepA : ℚ) : List ℚ :=
  (arange 0 rangeA stepA ++ arange rangeA (-rangeA) (-stepA)
      ++ arange (-rangeA) 0 stepA) ++ [0]

/-- The Python exceptions and error classes the embedded code can surface.
`protocolError` is the spec's §7 taxonomy name; it is included so that claims
about it can be stated, though no code path below produces it. -/
inductive PyErr where
  | nameError (n : String)
  | indexError
  | valueError
  | zeroDivisionError
  | protocolError
deriving DecidableEq

/-- Python `str.split(sep)` for a one-character separator, on the character
list: always returns at least one (possibly empty) piece. -/
def splitOnChar (sep : Char) : List Char → List (List Char)
  | [] => [[]]
  | c :: rest =>
    match splitOnChar sep rest with
    | [] => [[]]
    | h :: t => if c = sep then [] :: h :: t else (c :: h) :: t

/-- The value of a decimal digit character, none for a non-digit. -/
def digitVal (c : Char) : Option ℕ :=
  if '0' ≤ c ∧ c ≤ '9' then some (c.toNat - '0'.toNat) else none

/-- The value of a (possibly empty) run of decimal digits; none as soon as a
non-digit appears. -/
def digitsRun (cs : List Char) : Option ℕ :=
  cs.foldl (fun acc c => acc.bind fun a => (digitVal c).map fun d => a * 10 + d)
    (some 0)

/-- Python `int(s)` on the exponent strings in scope: an optional sign then a
nonempty digit run; anything else raises `ValueError`.  (Python additionally
strips whitespace and accepts underscores; the instrument replies modelled
here carry neither.) -/
def pyIntCore (cs : List Char) : Option ℤ :=
  match cs with
  | '-' :: rest =>
    if rest = [] then none else (digitsRun rest).map fun n => -(n : ℤ)
  | '+' :: rest =>
    if rest = [] then none else (digitsRun rest).map fun n => (n : ℤ)
  | _ => if cs = [] then none else (digitsRun cs).map fun n => (n : ℤ)

/-- Python `float(s)` on the mantissa strings in scope: optional sign, then
digits with at most one decimal point, at least one digit overall (`"1."` and
`".5"` parse, `"."` and `""` do not). -/
def pyFloatCore (cs : List Char) : Option ℚ :=
  let sgn : ℚ × List Char :=
    match cs with
    | '-' :: r => (-1, r)
    | '+' :: r => (1, r)
    | _ => (1, cs)
  match splitOnChar '.' sgn.2 with
  | [ip] => if ip = [] then none else (digitsRun ip).map fun n => sgn.1 * n
  | [ip, fp] =>
    if ip = [] ∧ fp = [] then none
    else
      (digitsRun ip).bind fun n => (digitsRun fp).map fun f =>
        sgn.1 * ((n : ℚ) + (f : ℚ) / 10 ^ fp.length)
  | _ => none

/-- Python `float(s)`: `ValueError` when unparseable. -/
def pyFloat (cs : List Char) : Except PyErr ℚ :=
  match pyFloatCore cs with
  | some q => .ok q
  | none => .error .valueError

/-- Python `int(s)`: `ValueError` when unparseable. -/
def pyInt (cs : List Char) : Except PyErr ℤ :=
  match pyIntCore cs with
  | some z => .ok z
  | none => .error .valueError

/-- The reply parser of `Keithley2182.measure_voltage` (keithley2182.py
lines 82-83): `tmp = self.query("READ?").split('E')` then
`float(tmp[0]) * 10 ** int(tmp[1])`, with Python's evaluation order —
`float(tmp[0])` is evaluated first, and the `tmp[1]` subscript raises
`IndexError` when the split produced a single piece. -/
def parseReadReply (cs : List Char) : Except PyErr ℚ :=
  let tmp := splitOnChar 'E' cs
  match pyFloat (tmp.headD []) with
  | .error e => .error e
  | .ok m =>
    match tmp[1]? with
    | none => .error .indexError
    | some e1 =>
      match pyInt e1 with
      | .error e => .error e
      | .ok ex => .ok (m * (10 : ℚ) ^ ex)

/-- The measurement loop of `Keithley2182.measure_voltage` (lines 80-83):
`reply i` is the instrument's reply to the `i`-th `READ?` query.  Returns the
number of `READ?` queries performed and the accumulated sum, stopping at the
first unparseable reply. -/
def mvRun (reply : ℕ → List Char) : ℕ → ℕ → ℚ → ℕ × Except PyErr ℚ
  | i, 0, acc => (i, .ok acc)
  | i, rem + 1, acc =>
    match parseReadReply (reply i) with
    | .error e => (i + 1, .error e)
    | .ok v => mvRun reply (i + 1) rem (acc + v)

/-- `Keithley2182.measure_voltage` (lines 78-84): after `INITIATE:CONT OFF`,
`iterations` query/parse rounds accumulate into `result`, and the method
returns `result / iterations` — Python numeric division, which raises
`ZeroDivisionError` when `iterations = 0` (the loop then made no query and
`result` is the integer 0).  First component: number of `READ?` queries. -/
def Keithley2182.measure_voltage (reply : ℕ → List Char) (iterations : ℕ) :
    ℕ × Except PyErr ℚ :=
  match mvRun reply 0 iterations 0 with
  | (q, .error e) => (q, .error e)
  | (q, .ok result) =>
    (q,
      if iterations = 0 then .error .zeroDivisionError
      else .ok (result / iterations))

/-- Observable outcome of `Keithley2182.set_channel`: the mirrored `channel`
attribute, the commands written to the transport, the lines printed to the
console, and the exception surfaced to the caller (if any). -/
structure SetChannelOutcome where
  channel : ℤ
  writes : List String
  printed : List String
  raised : Option PyErr
deriving DecidableEq

/-- `Keithley2182.set_channel` (keithley2182.py lines 51-62): channels 1, 2
and 0 update the mirrored attribute and write the select command; any other
argument prints `incorrect channel number` and returns normally. -/
def Keithley2182.set_channel (chan : ℤ) (channel_number : ℤ) :
    SetChannelOutcome :=
  if channel_number = 1 then ⟨1, [":SENSE:CHANNEL 1"], [], none⟩
  else if channel_number = 2 then ⟨2, [":SENSE:CHANNEL 2"], [], none⟩
  else if channel_number = 0 then ⟨0, [":SENSE:CHANNEL 0"], [], none⟩
  else ⟨chan, [], ["incorrect channel number"], none⟩

/-- The SCPI commands of the Keithley 6220 façade that the claims inspect,
as the current source's instrument sees them: a compound write such as
`"CURRent:RANGe:AUTO 0;CURRent:RANGe %g"` reaches it as the two commands in
order.  Unrecognized strings (such as the vendor string `"SourceMeter"`) are
kept verbatim as `writeRaw`. -/
inductive SourceCmd where
  | autoRange (b : Bool)
  | setRange (v : ℚ)
  | setCurrent (v : ℚ)
  | output (b : Bool)
  | writeRaw (s : String)
deriving DecidableEq

/-- The instrument-side state those commands act on. -/
structure SourceState where
  autoRange : Bool
  range : ℚ
  current : ℚ
  outputOn : Bool
deriving DecidableEq

/-- Effect of one command on the current source's state; the vendor string
`writeRaw` is no recognized state-changing SCPI command and leaves the state
unchanged. -/
def applySourceCmd (st : SourceState) : SourceCmd → SourceState
  | .autoRange b => { st with autoRange := b }
  | .setRange v => { st with range := v }
  | .setCurrent v => { st with current := v }
  | .output b => { st with outputOn := b }
  | .writeRaw _ => st

/-- Effect of a command sequence, first to last. -/
def applySourceCmds (st : SourceState) (cmds : List SourceCmd) : SourceState :=
  cmds.foldl applySourceCmd st

/-- Modelled from the spec: `truncated_range` from
`pymeasure.instruments.validators` (the module is not under `src/`); §4.1 and
§8 of the spec describe it as clamping the value to the declared
`[lo, hi]` interval. -/
def truncated_range (v lo hi : ℚ) : ℚ := max lo (min hi v)

/-- Setting the `current_range` property (keithley6220.py lines 62-69) writes
the compound set-command `"CURRent:RANGe:AUTO 0;CURRent:RANGe %g"` with the
value passed through the `truncated_range` validator over
`[-105e-3, 105e-3]`: auto-range is switched off first, then the range is
set. -/
def Keithley6220.set_current_range_cmds (v : ℚ) : List SourceCmd :=
  [.autoRange false, .setRange (truncated_range v (-(21 / 200)) (21 / 200))]

/-- `Keithley6220.enable_auto_range` (lines 135-138): `CURRent:RANGe:AUTO 1`. -/
def Keithley6220.enable_auto_range_cmds : List SourceCmd := [.autoRange true]

/-- `Keithley6220.disable_auto_range` (lines 140-143): `CURRent:RANGe:AUTO 0`. -/
def Keithley6220.disable_auto_range_cmds : List SourceCmd := [.autoRange false]

/-- `Keithley6220.enable_source` (lines 125-128): `OUTPUT ON`. -/
def Keithley6220.enable_source_cmds : List SourceCmd := [.output true]

/-- `Keithley6220.disable_source` (lines 130-133): `OUTPUT OFF`. -/
def Keithley6220.disable_source_cmds : List SourceCmd := [.output false]

/-- `Keithley6220.shutdown` (lines 120-123): the body is the single write
`self.write("SourceMeter")` — despite the docstring "Sets output to zero,
then turns the output off" it commands no current and never writes
`OUTPUT OFF`. -/
def Keithley6220.shutdown_cmds : List SourceCmd := [.writeRaw "SourceMeter"]

/-- `IV.shutdown` (IVkeithley.py lines 66-68): `self.source.shutdown()` then a
log line — the commands reaching the source are exactly the 6220 shutdown's. -/
def IV.shutdown_cmds : List SourceCmd := Keithley6220.shutdown_cmds

/-- The polling loop of `Keithley6220.check_errors` (lines 156-165) on the
stream of parsed error codes: `code i` is the code of the `i`-th
`:system:error?` poll.  The `while code != 0` loop exits only on a zero code;
the body's `if (time.time() - t) > 10` guard (with `t` re-taken each
iteration) only logs a warning and does not break, so wall-clock time never
ends the loop and is not part of the state.  `fuel` bounds how many further
polls we unroll; the result is the index of the first zero code, or `none`
when the loop is still running after `fuel` polls. -/
def check_errors_loop (code : ℕ → ℤ) : ℕ → ℕ → Option ℕ
  | _, 0 => none
  | i, fuel + 1 => if code i = 0 then some i else check_errors_loop code (i + 1) fuel

/-- The observable actions of `Keithley6220.ramp_to_current`. -/
inductive RampAction where
  | setCurrent (v : ℚ)
  | sleepFor (d : ℚ)
deriving DecidableEq

/-- `Keithley6220.ramp_to_current` (lines 172-186):
`np.linspace(self.source_current, target_current, steps)`, then for each value
`self.current = current; time.sleep(pause)`.  The starting point
`source_current` is modelled from the spec: §4.3 reads it as "the source's
last commanded current" (the attribute's resolution lives in the `Instrument`
base class, which is not under `src/`). -/
def Keithley6220.ramp_to_current (source_current target_current : ℚ)
    (steps : ℕ) (pause : ℚ) : List RampAction :=
  (linspace source_current target_current steps).foldr
    (fun c acc => RampAction.setCurrent c :: RampAction.sleepFor pause :: acc) []

/-- The current set-points a ramp trace writes, in order. -/
def rampWrites : List RampAction → List ℚ
  | [] => []
  | .setCurrent v :: rest => v :: rampWrites rest
  | .sleepFor _ :: rest => rampWrites rest

/-- One emitted step of `IV.execute`: the currents written to the source, the
`(current, voltage, resistance)` result records, and the progress values, in
order.  Resistance is the rational `voltage / current` (at `current = 0`
numpy's float division yields inf/nan without raising; the rational
convention `q / 0 = 0` likewise raises nothing, and no claim inspects the
value there). -/
structure ExecTrace where
  currentsSet : List ℚ
  records : List (ℚ × ℚ × ℚ)
  progress : List ℚ
deriving DecidableEq

/-- The sweep loop of `IV.execute` (IVkeithley.py lines 46-64) over a list of
currents: command the current, sleep, measure (`measure c` is the stub
voltage for commanded current `c`), emit the record and the progress
`100 * i / steps`, then poll `should_stop` and break if set. -/
def execGo (measure : ℚ → ℚ) (stop : ℕ → Bool) (steps : ℕ) :
    ℕ → List ℚ → ExecTrace
  | _, [] => ⟨[], [], []⟩
  | i, c :: rest =>
    let v := measure c
    let tail : ExecTrace :=
      if stop i then ⟨[], [], []⟩ else execGo measure stop steps (i + 1) rest
    ⟨c :: tail.currentsSet, (c, v, v / c) :: tail.records,
      (100 * i / steps : ℚ) :: tail.progress⟩

/-- The three `FloatParameter` class attributes of `IV` (IVkeithley.py lines
22-24): maximum current (µA, default 0.1), current step (nA, default 10),
delay (ms, default 10).  They live in the class namespace, not at module
level. -/
structure IVConfig where
  current_range : ℚ
  current_step : ℚ
  delay : ℚ
deriving DecidableEq

/-- The names bound in the global (module-level) namespace of `IVkeithley.py`:
the imports of lines 1-7, the logger of line 9, and the two top-level
definitions `CurrentValues` and `IV`.  The parameters `current_range` and
`current_step` are class attributes of `IV`, and a Python class body is not an
enclosing scope for its methods, so they are not among these names. -/
def IVmoduleGlobalNames : List String :=
  ["logging", "sleep", "np", "Keithley2182", "Keithley6220", "Procedure",
    "FloatParameter", "log", "CurrentValues", "IV"]

/-- The numeric value a bare name inside `IV.execute` resolves to: the method
body assigns neither `current_range` nor `current_step`, so Python falls back
to the module globals — and every module-level binding of `IVkeithley.py`
(`IVmoduleGlobalNames`: modules, classes, a function, a logger) is a
non-numeric object, none of them these names, so no bare name used as a number
resolves and the lookup of an unbound name raises `NameError`. -/
def IVnumericGlobals : String → Option ℚ := fun _ => none

/-- `IV.execute` (IVkeithley.py lines 41-64).  Line 42 evaluates the bare
names `current_range` and `current_step` (not `self.current_range` /
`self.current_step` — that is the defect): each is looked up in the global
environment `genv`, and an unresolved name raises `NameError` before any
current is commanded and before anything is emitted.  On success the waveform
is `CurrentValues(current_range, current_step * 1e-3) * 1e-6` and the sweep
loop `execGo` runs.  `cfg` carries the instance's parameters, which the body
never reads. -/
def IV.execute (cfg : IVConfig) (genv : String → Option ℚ) (measure : ℚ → ℚ)
    (stop : ℕ → Bool) : ExecTrace × Option PyErr :=
  match genv "current_range" with
  | none => (⟨[], [], []⟩, some (.nameError "current_range"))
  | some cr =>
    match genv "current_step" with
    | none => (⟨[], [], []⟩, some (.nameError "current_step"))
    | some cs =>
      let currents := (CurrentValues cr (cs * (1 / 1000))).map
        (fun c => c * (1 / 1000000))
      (execGo measure stop currents.length 0 currents, none)

/-- C3: every invocation of `IV.execute` fails with a name-resolution error on
the bare name `current_range` — a class attribute of `IV`, not a module-level
binding, and methods do not see class scope — before any current is commanded
to the source and before any result record or progress value is emitted:
whatever the configuration, the stub voltages and the stop flag, the trace is
empty and the outcome is `NameError`. -/
theorem IV_execute_always_name_error :
    "current_range" ∉ IVmoduleGlobalNames ∧
      ∀ (cfg : IVConfig) (measure : ℚ → ℚ) (stop : ℕ → Bool),
        IV.execute cfg IVnumericGlobals measure stop
          = (⟨[], [], []⟩, some (PyErr.nameError "current_range")) :=
  ⟨by decide, fun _ _ _ => rfl⟩

/-- C2 counterexample: with configuration `(max_current = 1.0,
current_step = 0.5)` and a stub transport echoing the commanded current back
as the voltage, `IV.execute` does not emit 5 result records with a final
progress of 100 — it emits nothing at all. -/
theorem IV_execute_scenario_false :
    ¬ (((IV.execute ⟨1, 1 / 2, 10⟩ IVnumericGlobals (fun c => c)
            (fun _ => false)).1.records.length = 5) ∧
        ((IV.execute ⟨1, 1 / 2, 10⟩ IVnumericGlobals (fun c => c)
            (fun _ => false)).1.progress.getLast? = some 100)) := by
  intro h
  exact absurd h.1 (by simp [IV.execute, IVnumericGlobals])

/-- C2 (amended): run with configuration `(max_current = 1.0,
current_step = 0.5)` against the echo stub, `IV.execute` raises `NameError`
on the bare name `current_range` and emits no result record and no progress
value. -/
theorem IV_execute_scenario_actual :
    IV.execute ⟨1, 1 / 2, 10⟩ IVnumericGlobals (fun c => c) (fun _ => false)
      = (⟨[], [], []⟩, some (PyErr.nameError "current_range")) := rfl

/-- C4: `Keithley6220.shutdown` (reached from `IV.shutdown`) writes only the
vendor string `"SourceMeter"`: it never writes `OUTPUT OFF` and never commands
a current, so on every instrument state it leaves the output relay and the
sourced current exactly as they were — it neither ramps the current down nor
disables the source output, contradicting its own docstring "Sets output to
zero, then turns the output off". -/
theorem Keithley6220_shutdown_changes_nothing :
    IV.shutdown_cmds = [SourceCmd.writeRaw "SourceMeter"] ∧
      Keithley6220.shutdown_cmds = [SourceCmd.writeRaw "SourceMeter"] ∧
      ∀ st : SourceState, applySourceCmds st Keithley6220.shutdown_cmds = st :=
  ⟨rfl, rfl, fun _ => rfl⟩

/-- C7: `Keithley2182.set_channel` signals no usage error for an argument
outside `{0, 1, 2}` — channel 3 merely prints `incorrect channel number`,
writes nothing, leaves the mirrored channel unchanged and raises nothing
(`raised = none` on every input) — while each member of the enumerated set
does issue its channel-select command. -/
theorem Keithley2182_set_channel_prints_instead_of_raising :
    Keithley2182.set_channel 1 3 = ⟨1, [], ["incorrect channel number"], none⟩ ∧
      Keithley2182.set_channel 1 1 = ⟨1, [":SENSE:CHANNEL 1"], [], none⟩ ∧
      Keithley2182.set_channel 1 2 = ⟨2, [":SENSE:CHANNEL 2"], [], none⟩ ∧
      Keithley2182.set_channel 1 0 = ⟨0, [":SENSE:CHANNEL 0"], [], none⟩ ∧
      ∀ chan k : ℤ, (Keithley2182.set_channel chan k).raised = none := by
  refine ⟨rfl, rfl, rfl, rfl, fun chan k => ?_⟩
  unfold Keithley2182.set_channel
  split_ifs <;> rfl

/-- C10: `Keithley2182.measure_voltage` called with `iterations = 0` performs
no `READ?` query round and ends in `ZeroDivisionError` (the accumulated 0 is
divided by the iteration count 0) instead of returning a measurement,
whatever the instrument replies would have been. -/
theorem Keithley2182_measure_voltage_zero_iterations :
    ∀ reply : ℕ → List Char,
      Keithley2182.measure_voltage reply 0
        = (0, Except.error PyErr.zeroDivisionError) :=
  fun _ => rfl

/-- C9: the set-command sequence of the `current_range` property first
disables auto-range and then sets the (validated) range, so after setting
`current_range` the source's auto-range is always off — also when
`enable_auto_range()` ran immediately before — and the range holds the
clamped value. -/
theorem Keithley6220_current_range_forces_auto_off :
    (∀ v : ℚ, Keithley6220.set_current_range_cmds v
        = [SourceCmd.autoRange false,
            SourceCmd.setRange (truncated_range v (-(21 / 200)) (21 / 200))]) ∧
      (∀ (st : SourceState) (v : ℚ),
        (applySourceCmds st (Keithley6220.enable_auto_range_cmds
            ++ Keithley6220.set_current_range_cmds v)).autoRange = false) ∧
      (∀ (st : SourceState) (v : ℚ),
        applySourceCmds st (Keithley6220.set_current_range_cmds v)
          = { st with
                autoRange := false
                range := truncated_range v (-(21 / 200)) (21 / 200) }) :=
  ⟨fun _ => rfl, fun _ _ => rfl, fun _ _ => rfl⟩

/-- C5 counterexample: on a reply stream whose error code is never zero, the
`check_errors` polling loop is still running after 100 polls — far past any
10-second wall-clock bound at instrument round-trip rates — because the
timeout check inside the loop only logs a warning and never exits. -/
theorem check_errors_loop_ignores_timeout :
    check_errors_loop (fun _ => 1) 0 100 = none := by decide

/-- C5 (amended): the `check_errors` loop exits only when a reported error
code is zero — whenever it ends after finitely many polls it ended on the
first zero code, every earlier code being non-zero (and logged) — and on a
reply stream that never reports zero it never exits, however many polls are
unrolled: the 10-second check logs a warning but does not terminate the
loop. -/
theorem check_errors_loop_exits_only_on_zero :
    (∀ (code : ℕ → ℤ) (fuel i k : ℕ),
        check_errors_loop code i fuel = some k
          → code k = 0 ∧ i ≤ k ∧ ∀ j, i ≤ j → j < k → code j ≠ 0) ∧
      ∀ code : ℕ → ℤ, (∀ i, code i ≠ 0)
          → ∀ fuel i, check_errors_loop code i fuel = none := by
  constructor
  · intro code fuel
    induction fuel with
    | zero => intro i k h; exact absurd h (by simp [check_errors_loop])
    | succ n ih =>
      intro i k h
      rw [check_errors_loop] at h
      by_cases hc : code i = 0
      · rw [if_pos hc] at h
        obtain rfl : i = k := Option.some.inj h
        exact ⟨hc, le_rfl, fun j h1 h2 => absurd (lt_of_le_of_lt h1 h2) (lt_irrefl _)⟩
      · rw [if_neg hc] at h
        obtain ⟨h0, h1, h2⟩ := ih (i + 1) k h
        refine ⟨h0, le_trans (Nat.le_succ i) h1, fun j hj1 hj2 => ?_⟩
        rcases Nat.eq_or_lt_of_le hj1 with rfl | hj
        · exact hc
        · exact h2 j hj hj2
  · intro code hnz fuel
    induction fuel with
    | zero => intro i; rfl
    | succ n ih => intro i; rw [check_errors_loop, if_neg (hnz i)]; exact ih (i + 1)

/-- Helper: `pyFloat` fails only with `ValueError`. -/
lemma pyFloat_error_eq {cs : List Char} {e : PyErr} (h : pyFloat cs = .error e) :
    e = PyErr.valueError := by
  unfold pyFloat at h
  cases hc : pyFloatCore cs with
  | none => rw [hc] at h; exact (Except.error.inj h).symm
  | some q => rw [hc] at h; exact absurd h (by simp)

/-- C6 counterexample: the reply `"42"` has no `E` exponent marker, and the
parser fails on it with `IndexError` (the `tmp[1]` subscript), not with
`ProtocolError`. -/
theorem parseReadReply_no_marker_not_protocol_error :
    parseReadReply ['4', '2'] = .error PyErr.indexError ∧
      parseReadReply ['4', '2'] ≠ .error PyErr.protocolError := by
  refine ⟨rfl, fun h => ?_⟩
  rw [show parseReadReply ['4', '2'] = .error PyErr.indexError from rfl] at h
  exact PyErr.noConfusion (Except.error.inj h)

/-- C6 (amended): the parser maps the scientific-notation reply `"1.5E-3"` to
the value 0.0015 (mantissa times 10 to the exponent), and every reply with no
`E` exponent marker fails with `IndexError` — or with `ValueError` when the
whole reply is not even parseable as a float — never with `ProtocolError`
(which no path of this parser produces). -/
theorem parseReadReply_sci_value_and_no_marker_fails :
    parseReadReply ['1', '.', '5', 'E', '-', '3'] = .ok (3 / 2000) ∧
      ∀ s : List Char, (splitOnChar 'E' s).length = 1 →
        parseReadReply s = .error PyErr.indexError
          ∨ parseReadReply s = .error PyErr.valueError := by
  constructor
  · have h1 : splitOnChar 'E' ['1', '.', '5', 'E', '-', '3']
        = [['1', '.', '5'], ['-', '3']] := rfl
    have h2 : pyFloat ['1', '.', '5'] = .ok ((1 : ℚ) * (1 + 5 / 10 ^ 1)) := rfl
    have h3 : pyInt ['-', '3'] = .ok (-(3 : ℤ)) := rfl
    simp only [parseReadReply, h1, h2, h3, List.headD, List.getElem?_cons_succ,
      List.getElem?_cons_zero]
    norm_num
  · intro s hs1
    cases htmp : splitOnChar 'E' s with
    | nil => rw [htmp] at hs1; exact absurd hs1 (by simp)
    | cons a t =>
      cases t with
      | cons b t2 => rw [htmp] at hs1; exact absurd hs1 (by simp)
      | nil =>
        simp only [parseReadReply, htmp, List.headD]
        cases hpf : pyFloat a with
        | error e =>
          rw [pyFloat_error_eq hpf]
          exact Or.inr rfl
        | ok m => exact Or.inl rfl

/-- Helper: the set-points a ramp trace writes are exactly the ramped list. -/
lemma rampWrites_foldr (l : List ℚ) (pause : ℚ) :
    rampWrites (l.foldr
        (fun c acc => RampAction.setCurrent c :: RampAction.sleepFor pause :: acc)
        []) = l := by
  induction l with
  | nil => rfl
  | cons c t ih => simp only [List.foldr_cons, rampWrites, ih]

/-- Helper: position `2k` of a ramp trace is the `k`-th write and position
`2k + 1` the pause after it. -/
lemma ramp_trace_getElem (l : List ℚ) (pause : ℚ) (k : ℕ) :
    (l.foldr
        (fun c acc => RampAction.setCurrent c :: RampAction.sleepFor pause :: acc)
        [])[2 * k]? = (l[k]?).map RampAction.setCurrent ∧
      (l.foldr
          (fun c acc =>
            RampAction.setCurrent c :: RampAction.sleepFor pause :: acc)
          [])[2 * k + 1]? = (l[k]?).map (fun _ => RampAction.sleepFor pause) := by
  induction l generalizing k with
  | nil => simp
  | cons c t ih =>
    cases k with
    | zero => simp
    | succ m =>
      have h2 : 2 * (m + 1) = 2 * m + 1 + 1 := by ring
      rw [List.foldr_cons, h2]
      simp only [List.getElem?_cons_succ]
      exact ih m

/-- Helper: the length of a linspace. -/
lemma linspace_length (start stop : ℚ) (num : ℕ) :
    (linspace start stop num).length = num := by
  unfold linspace
  rw [List.length_map, List.length_range]

/-- Helper: entry `k < num` of a linspace. -/
lemma linspace_getElem (start stop : ℚ) (num k : ℕ) (hk : k < num) :
    (linspace start stop num)[k]?
      = some (start + k * ((stop - start) / ((num : ℚ) - 1))) := by
  unfold linspace
  rw [List.getElem?_map, List.getElem?_range hk]
  rfl

/-- Helper: a linspace with at least one sample starts at `start`. -/
lemma linspace_head (start stop : ℚ) (num : ℕ) (h : 1 ≤ num) :
    (linspace start stop num).head? = some start := by
  obtain ⟨m, rfl⟩ : ∃ m, num = m + 1 := ⟨num - 1, by omega⟩
  unfold linspace
  rw [List.range_succ_eq_map]
  simp

/-- Helper: a linspace with at least two samples ends exactly at `stop`. -/
lemma linspace_last (start stop : ℚ) (num : ℕ) (h : 2 ≤ num) :
    (linspace start stop num).getLast? = some stop := by
  have hne : ((num : ℚ) - 1) ≠ 0 := by
    have : (2 : ℚ) ≤ (num : ℚ) := by exact_mod_cast h
    intro hc
    rw [sub_eq_zero] at hc
    rw [hc] at this
    norm_num at this
  rw [List.getLast?_eq_getElem?, linspace_length,
    linspace_getElem start stop num (num - 1) (by omega)]
  have hcast : ((num - 1 : ℕ) : ℚ) = (num : ℚ) - 1 := by
    have : 1 ≤ num := by omega
    push_cast [this]
    ring
  rw [hcast]
  congr 1
  field_simp

/-- C8: `ramp_to_current target steps pause` writes to the `current` property
exactly `steps` values — the linearly spaced sequence from the source's last
commanded current to `target`, whose `k`-th value is
`start + k·(target - start)/(steps - 1)`, starting at the last commanded
current and ending at `target` — and the trace sleeps `pause` seconds after
each write, in strict write/sleep alternation. -/
theorem Keithley6220_ramp_to_current_linear (start target pause : ℚ)
    (steps : ℕ) (h : 2 ≤ steps) :
    rampWrites (Keithley6220.ramp_to_current start target steps pause)
        = linspace start target steps ∧
      (rampWrites (Keithley6220.ramp_to_current start target steps pause)).length
        = steps ∧
      (rampWrites (Keithley6220.ramp_to_current start target steps pause)).head?
        = some start ∧
      (rampWrites (Keithley6220.ramp_to_current start target steps pause)).getLast?
        = some target ∧
      ∀ k : ℕ, k < steps →
        (Keithley6220.ramp_to_current start target steps pause)[2 * k]?
            = some (RampAction.setCurrent
                (start + k * ((target - start) / ((steps : ℚ) - 1)))) ∧
          (Keithley6220.ramp_to_current start target steps pause)[2 * k + 1]?
            = some (RampAction.sleepFor pause) := by
  have hw : rampWrites (Keithley6220.ramp_to_current start target steps pause)
      = linspace start target steps := rampWrites_foldr _ _
  refine ⟨hw, ?_, ?_, ?_, ?_⟩
  · rw [hw, linspace_length]
  · rw [hw, linspace_head start target steps (by omega)]
  · rw [hw, linspace_last start target steps h]
  · intro k hk
    have hg := ramp_trace_getElem (linspace start target steps) pause k
    have hlk := linspace_getElem start target steps k hk
    unfold Keithley6220.ramp_to_current
    rw [hg.1, hg.2, hlk]
    exact ⟨rfl, rfl⟩

/-- C8 witness: the ramp from a last commanded current of 0 A to 1 A in
3 steps with a 20 ms pause. -/
theorem Keithley6220_ramp_to_current_linear_witness :
    rampWrites (Keithley6220.ramp_to_current 0 1 3 (1 / 50))
        = linspace 0 1 3 ∧
      (rampWrites (Keithley6220.ramp_to_current 0 1 3 (1 / 50))).length = 3 ∧
      (rampWrites (Keithley6220.ramp_to_current 0 1 3 (1 / 50))).head?
        = some 0 ∧
      (rampWrites (Keithley6220.ramp_to_current 0 1 3 (1 / 50))).getLast?
        = some 1 ∧
      ∀ k : ℕ, k < 3 →
        (Keithley6220.ramp_to_current 0 1 3 (1 / 50))[2 * k]?
            = some (RampAction.setCurrent
                (0 + k * ((1 - 0) / (((3 : ℕ) : ℚ) - 1)))) ∧
          (Keithley6220.ramp_to_current 0 1 3 (1 / 50))[2 * k + 1]?
            = some (RampAction.sleepFor (1 / 50)) :=
  Keithley6220_ramp_to_current_linear 0 1 (1 / 50) 3 (by norm_num)

/-- Helper: length of an arange. -/
lemma arange_length (start stop step : ℚ) :
    (arange start stop step).length = (⌈(stop - start) / step⌉).toNat := by
  unfold arange
  rw [List.length_map, List.length_range]

/-- Helper: membership in an arange. -/
lemma mem_arange {start stop step v : ℚ} :
    v ∈ arange start stop step
      ↔ ∃ k : ℕ, k < (⌈(stop - start) / step⌉).toNat
          ∧ v = start + (k : ℚ) * step := by
  unfold arange
  constructor
  · intro h
    rcases List.mem_map.mp h with ⟨k, hk, rfl⟩
    exact ⟨k, List.mem_range.mp hk, rfl⟩
  · rintro ⟨k, hk, rfl⟩
    exact List.mem_map.mpr ⟨k, List.mem_range.mpr hk, rfl⟩

/-- Helper: membership in the generated waveform, segment by segment. -/
lemma mem_CurrentValues {r s v : ℚ} :
    v ∈ CurrentValues r s
      ↔ v ∈ arange 0 r s ∨ v ∈ arange r (-r) (-s)
          ∨ v ∈ arange (-r) 0 s ∨ v = 0 := by
  unfold CurrentValues
  simp [List.mem_append, or_assoc]

/-- Helper: the waveform's length, with no hypothesis on the parameters. -/
lemma CurrentValues_length (r s : ℚ) :
    (CurrentValues r s).length
      = (⌈r / s⌉).toNat + (⌈2 * r / s⌉).toNat + (⌈r / s⌉).toNat + 1 := by
  have e1 : (r - 0 : ℚ) = r := sub_zero r
  have e2 : ((-r) - r : ℚ) / (-s) = 2 * r / s := by
    rw [show ((-r) - r : ℚ) = -(2 * r) by ring, neg_div_neg_eq]
  have e3 : ((0 : ℚ) - -r) = r := by ring
  unfold CurrentValues
  rw [List.length_append, List.length_append, List.length_append,
    arange_length, arange_length, arange_length, e1, e2, e3]
  simp

/-- Helper: the waveform starts at 0 when `0 < s ≤ r`. -/
lemma CurrentValues_head (r s : ℚ) (hs : 0 < s) (hsr : s ≤ r) :
    (CurrentValues r s).head? = some 0 := by
  have hr : 0 < r := lt_of_lt_of_le hs hsr
  have hpos : 0 < ⌈(r - 0) / s⌉ :=
    Int.ceil_pos.mpr (div_pos (by linarith) hs)
  obtain ⟨m, hm⟩ : ∃ m, (⌈(r - 0) / s⌉).toNat = m + 1 :=
    ⟨(⌈(r - 0) / s⌉).toNat - 1, by omega⟩
  unfold CurrentValues arange
  rw [hm, List.range_succ_eq_map]
  simp

/-- Helper: the waveform always ends with the appended 0. -/
lemma CurrentValues_last (r s : ℚ) : (CurrentValues r s).getLast? = some 0 := by
  unfold CurrentValues
  exact List.getLast?_concat _

/-- Helper: when the step divides the range (`r = n·s`), every positive value
of the waveform has its negation in the waveform. -/
lemma CurrentValues_symm (r s : ℚ) (hs : 0 < s) (n : ℕ) (hr : r = n * s) :
    ∀ v ∈ CurrentValues r s, 0 < v → -v ∈ CurrentValues r s := by
  subst hr
  have hs0 : s ≠ 0 := ne_of_gt hs
  have hc1 : (⌈(((n : ℚ) * s) - 0) / s⌉).toNat = n := by
    rw [sub_zero, mul_div_assoc, div_self hs0, mul_one, Int.ceil_natCast,
      Int.toNat_natCast]
  have hc2 : (⌈((-((n : ℚ) * s)) - (n : ℚ) * s) / (-s)⌉).toNat = 2 * n := by
    have h2 : ((-((n : ℚ) * s)) - (n : ℚ) * s) / (-s) = ((2 * n : ℕ) : ℚ) := by
      rw [show ((-((n : ℚ) * s)) - (n : ℚ) * s) = -(((2 * n : ℕ) : ℚ) * s) by
        push_cast; ring, neg_div_neg_eq, mul_div_assoc, div_self hs0, mul_one]
    rw [h2, Int.ceil_natCast, Int.toNat_natCast]
  have hc3 : (⌈((0 : ℚ) - -((n : ℚ) * s)) / s⌉).toNat = n := by
    rw [zero_sub, neg_neg, mul_div_assoc, div_self hs0, mul_one,
      Int.ceil_natCast, Int.toNat_natCast]
  intro v hv hvpos
  rw [mem_CurrentValues] at hv ⊢
  rcases hv with h1 | h2 | h3 | h0
  · -- v = k·s with k < n: its negation sits in the descending segment
    rw [mem_arange, hc1] at h1
    obtain ⟨k, hk, rfl⟩ := h1
    refine Or.inr (Or.inl ?_)
    rw [mem_arange, hc2]
    exact ⟨n + k, by omega, by push_cast; ring⟩
  · -- v = n·s - k·s, positive forces k < n: negation in the third segment
    rw [mem_arange, hc2] at h2
    obtain ⟨k, hk, rfl⟩ := h2
    have hkn : k < n := by
      by_contra hkn
      push_neg at hkn
      have hcast : (n : ℚ) ≤ (k : ℚ) := by exact_mod_cast hkn
      nlinarith
    refine Or.inr (Or.inr (Or.inl ?_))
    rw [mem_arange, hc3]
    exact ⟨k, hkn, by ring⟩
  · -- the third segment is negative: contradiction with positivity
    rw [mem_arange, hc3] at h3
    obtain ⟨k, hk, rfl⟩ := h3
    have hcast : (k : ℚ) < (n : ℚ) := by exact_mod_cast hk
    have hneg : ((k : ℚ) - n) * s < 0 :=
      mul_neg_of_neg_of_pos (by linarith) hs
    have heq : ((k : ℚ) - n) * s = -((n : ℚ) * s) + (k : ℚ) * s := by ring
    rw [heq] at hneg
    linarith
  · rw [h0] at hvpos
    exact absurd hvpos (lt_irrefl 0)

/-- Helper: the waveform at `(max_current, current_step) = (1, 3/5)`,
evaluated. -/
lemma CurrentValues_one_threeFifths :
    CurrentValues 1 (3 / 5)
      = [0, 3 / 5, 1, 2 / 5, -(1 / 5), -(4 / 5), -1, -(2 / 5), 0] := by
  have c1 : ⌈((1 : ℚ) - 0) / (3 / 5)⌉ = 2 := by
    rw [Int.ceil_eq_iff]; norm_num
  have c2 : ⌈((-1 : ℚ) - 1) / (-(3 / 5))⌉ = 4 := by
    rw [Int.ceil_eq_iff]; norm_num
  have c3 : ⌈((0 : ℚ) - -1) / (3 / 5)⌉ = 2 := by
    rw [Int.ceil_eq_iff]; norm_num
  unfold CurrentValues arange
  rw [c1, c2, c3, show Int.toNat 2 = 2 from rfl, show Int.toNat 4 = 4 from rfl]
  norm_num [List.range_succ]

/-- C1 counterexample: at `(max_current, current_step) = (1, 3/5)` — which
satisfies `0 < current_step ≤ max_current` — the waveform has 9 points, not
the claimed `3·⌈max_current/current_step⌉ + 1 = 7`, and it is not symmetric:
the positive value `3/5` occurs but `-3/5` does not. -/
theorem CurrentValues_claimed_shape_false :
    ¬ ((CurrentValues 1 (3 / 5)).length
          = 3 * (⌈(1 : ℚ) / (3 / 5)⌉).toNat + 1) ∧
      ¬ (∀ v ∈ CurrentValues 1 (3 / 5), 0 < v
          → -v ∈ CurrentValues 1 (3 / 5)) := by
  constructor
  · intro h
    rw [CurrentValues_one_threeFifths,
      show ⌈(1 : ℚ) / (3 / 5)⌉ = 2 by rw [Int.ceil_eq_iff]; norm_num] at h
    simp only [List.length_cons, List.length_nil] at h
    omega
  · intro h
    have h1 : (3 / 5 : ℚ) ∈ CurrentValues 1 (3 / 5) := by
      rw [CurrentValues_one_threeFifths]
      norm_num
    have h2 := h (3 / 5) h1 (by norm_num)
    rw [CurrentValues_one_threeFifths] at h2
    norm_num [List.mem_cons] at h2

/-- C1 (amended): for every `(max_current, current_step)` with
`0 < current_step ≤ max_current`, the waveform starts at 0, ends at 0, and
has length `⌈max/step⌉ + ⌈2·max/step⌉ + ⌈max/step⌉ + 1` (the three `arange`
segments plus the appended 0 — equal to `4·(max/step) + 1`, not
`3·⌈max/step⌉ + 1`, when the step divides the range); and whenever the step
divides the range (`max = n·step`), for every positive value `v` present,
`-v` is also present.  (For a non-dividing step the symmetry fails, see the
counterexample.) -/
theorem CurrentValues_shape (r s : ℚ) (hs : 0 < s) (hsr : s ≤ r) :
    (CurrentValues r s).head? = some 0 ∧
      (CurrentValues r s).getLast? = some 0 ∧
      (CurrentValues r s).length
        = (⌈r / s⌉).toNat + (⌈2 * r / s⌉).toNat + (⌈r / s⌉).toNat + 1 ∧
      ∀ n : ℕ, r = n * s →
        ∀ v ∈ CurrentValues r s, 0 < v → -v ∈ CurrentValues r s :=
  ⟨CurrentValues_head r s hs hsr, CurrentValues_last r s,
    CurrentValues_length r s, fun n hn => CurrentValues_symm r s hs n hn⟩

/-- C1 witness: the amended shape at `(max_current, current_step) = (1, 1/2)`. -/
theorem CurrentValues_shape_witness :
    (CurrentValues 1 (1 / 2)).head? = some 0 ∧
      (CurrentValues 1 (1 / 2)).getLast? = some 0 ∧
      (CurrentValues 1 (1 / 2)).length
        = (⌈(1 : ℚ) / (1 / 2)⌉).toNat + (⌈2 * (1 : ℚ) / (1 / 2)⌉).toNat
            + (⌈(1 : ℚ) / (1 / 2)⌉).toNat + 1 ∧
      ∀ n : ℕ, (1 : ℚ) = n * (1 / 2) →
        ∀ v ∈ CurrentValues 1 (1 / 2), 0 < v → -v ∈ CurrentValues 1 (1 / 2) :=
  CurrentValues_shape 1 (1 / 2) (by norm_num) (by norm_num)
